import Mathlib

/-!
Verification development for the `morseclock` repository.

Shallow embedding of:
* `parser::parse_trigger` (morseclock-bin/src/lib.rs),
* `DutyCycle`'s `FromStr` validation (lib.rs),
* the `SysfsLed` resource (`new`, `set`, `on`, `off`, `write_trigger`,
  `reset_trigger`, `Drop`) over an explicit sysfs device state,
* the `hwclock` scheduler (`blink`, the symbol loop, the pause-slice
  loop, `approximate_pause_repeats`, `main`'s exit code),
* the `Clock` construction sites of both binaries.

Sysfs endpoint behaviour (reads render the trigger list with the active
mode bracketed, a write of a mode name activates it, brightness writes
store the printed number) follows the device control surface the
repository drives; I/O failures are modelled by explicit failure
schedules on the device state so that error paths are visible.
-/

set_option maxHeartbeats 1000000


/-- Character class accepted inside a bracketed trigger token by
`trigger_char1` in lib.rs: ASCII alphanumeric or hyphen. -/
def allowedChar (c : Char) : Bool :=
  decide ('0' ≤ c ∧ c ≤ '9') || decide ('a' ≤ c ∧ c ≤ 'z') ||
    decide ('A' ≤ c ∧ c ≤ 'Z') || c == '-'

/-- ASCII digit test, as used by Rust's `u32: FromStr` on each byte. -/
def isDigitC (c : Char) : Bool :=
  decide ('0' ≤ c ∧ c ≤ '9')

/-- Whitespace test used to model `str::trim`. -/
def isWsC (c : Char) : Bool :=
  c == ' ' || c == '\t' || c == '\n' || c == '\r'

/-- Numeric value of an ASCII digit character. -/
def charVal (c : Char) : Nat := c.toNat - 48

/-- Value of a big-endian ASCII digit string. -/
def digitsVal (cs : List Char) : Nat :=
  cs.foldl (fun a c => 10 * a + charVal c) 0

/-- Model of `str::trim`: strip leading and trailing whitespace. -/
def trim (cs : List Char) : List Char :=
  ((cs.dropWhile isWsC).reverse.dropWhile isWsC).reverse

/-- Digit-run part of `str::parse::<u32>`: one or more ASCII digits,
value below `2^32`. -/
def parseU32core (l : List Char) : Option Nat :=
  if l ≠ [] ∧ (∀ c ∈ l, isDigitC c = true) then
    if digitsVal l < 4294967296 then some (digitsVal l) else none
  else none

/-- Model of `str::parse::<u32>`: an optional leading `+`, then one or
more ASCII digits, value below `2^32`. -/
def parseU32? (cs : List Char) : Option Nat :=
  parseU32core (if cs.head? = some '+' then cs.tail else cs)

/-- Decimal digit characters of `n`, most significant first, with
explicit structural fuel (the fuel is irrelevant once `n < fuel`). -/
def natCharsAux : Nat → Nat → List Char
  | 0, _ => []
  | fuel + 1, n =>
    if n < 10 then [Nat.digitChar n]
    else natCharsAux fuel (n / 10) ++ [Nat.digitChar (n % 10)]

/-- Decimal rendering of `n`, as written by `write_fmt` for a `u32`. -/
def natChars (n : Nat) : List Char := natCharsAux (n + 1) n

/-- Outcome of running `parser::parse_trigger`: either a normal return
of the optional mode, or the panic that `Finish::finish` raises on
`Err::Incomplete` (nom 6.1+/7, as pinned by the `Finish` import). -/
inductive ParseResult where
  | ret (r : Option (List Char))
  | panicked
  deriving DecidableEq, Repr

/-- Shallow embedding of `parser::parse_trigger` (lib.rs lines 23-35),
including its panic path. Seek the first `[`; after `tag "["` consumes
it, `trigger_char1` calls the *streaming* `split_at_position1`, so when
no non-`allowedChar` position exists before end of input it returns
`Err::Incomplete`, which `Finish::finish` turns into a panic (first
branch below); when the boundary is at position 0 (empty run) it is an
ordinary error, degraded to `none` via `unwrap_or(None)`; otherwise
`tag "]"` must match immediately and the literal token `none` maps to
no mode. -/
def parseTriggerRun (cs : List Char) : ParseResult :=
  match cs.dropWhile (fun c => c != '[') with
  | [] => .ret none
  | _ :: rest =>
    if rest.dropWhile allowedChar = [] then .panicked
    else if rest.takeWhile allowedChar = [] then .ret none
    else if (rest.dropWhile allowedChar).head? = some ']' then
      if rest.takeWhile allowedChar = "none".data then .ret none
      else .ret (some (rest.takeWhile allowedChar))
    else .ret none

/-- The value `parse_trigger` returns on the inputs where it returns at
all; on the inputs where the real function panics (see
`parseTriggerRun`) this projection yields `none`. It is only ever read
below on blobs proved to parse without panicking (`render_parse_run`). -/
def parseTriggerCore (cs : List Char) : Option (List Char) :=
  match cs.dropWhile (fun c => c != '[') with
  | [] => none
  | _ :: rest =>
    if rest.takeWhile allowedChar = [] then none
    else if (rest.dropWhile allowedChar).head? = some ']' then
      if rest.takeWhile allowedChar = "none".data then none
      else some (rest.takeWhile allowedChar)
    else none

/-- String-level wrapper of `parseTriggerCore`: the Rust signature
`parse_trigger(&str) -> Option<&str>` on non-panicking inputs. -/
def parse_trigger (s : String) : Option String :=
  (parseTriggerCore s.data).map fun cs => ⟨cs⟩

/-- Spec-side trigger parser, written from the claim's words: the
substring between the first `[` and the first `]` after it, unless that
substring is empty, is the literal token `none`, or is not composed
solely of alphanumeric-or-hyphen characters, or no such bracketed token
exists at all; in each of those cases no mode is returned. -/
def specTriggerParse (cs : List Char) : Option (List Char) :=
  match cs.dropWhile (fun c => c != '[') with
  | [] => none
  | _ :: rest =>
    if ']' ∈ rest then
      if rest.takeWhile (fun c => c != ']') = [] ∨
          rest.takeWhile (fun c => c != ']') = "none".data ∨
          ¬ (∀ c ∈ rest.takeWhile (fun c => c != ']'), allowedChar c = true)
      then none
      else some (rest.takeWhile (fun c => c != ']'))
    else none

/-- Error enumeration of lib.rs (payloads elided). -/
inductive Error where
  | InvalidDutyCycle
  | ParseFloat
  | ParseInt
  | Led
  deriving DecidableEq, Repr

/-- The `DutyCycle` newtype; the wrapped `f64` is modelled as an exact
rational. -/
structure DutyCycle where
  val : ℚ
  deriving DecidableEq, Repr

/-- The range check of `impl FromStr for DutyCycle` (lib.rs lines
157-169), applied to the successfully parsed numeric value. -/
def dutyCycleCheck (v : ℚ) : Except Error DutyCycle :=
  if v ≤ 0 ∨ 1 < v then .error .InvalidDutyCycle else .ok ⟨v⟩

/-- Observable device events: brightness writes, trigger writes, and
thread sleeps, recorded in attempt order (a failed write is still
recorded as an attempt). -/
inductive Event where
  | bwrite (v : Nat)
  | twrite (s : List Char)
  | slept (ms : Nat)
  deriving DecidableEq, Repr

/-- State of one sysfs LED device (the external control surface):
the available trigger modes, the active mode, the raw contents of the
`brightness` and `max_brightness` files, plus failure schedules for the
fallible open/write operations and a ghost trace of attempted events.
`bFail n` (resp. `tFail n`) tells whether the `n`-th brightness (resp.
trigger) write fails; `bCount`/`tCount` count the writes so far. -/
structure Device where
  modes : List (List Char)
  active : List Char
  brightness : List Char
  maxB : List Char
  tOpenFail : Bool
  bOpenFail : Bool
  bFail : Nat → Bool
  tFail : Nat → Bool
  bCount : Nat
  tCount : Nat
  trace : List Event

/-- One rendered entry of the trigger file: the active mode is
bracketed. -/
def renderItem (active m : List Char) : List Char :=
  if m = active then '[' :: (m ++ [']']) else m

/-- Reading the `trigger` file renders the space-separated mode list
with the active mode bracketed. -/
def render (active : List Char) : List (List Char) → List Char
  | [] => []
  | [m] => renderItem active m
  | m :: m2 :: ms => renderItem active m ++ ' ' :: render active (m2 :: ms)

/-- A brightness write: on success the file holds the printed number;
the attempt is traced either way. -/
def writeB (d : Device) (v : Nat) : Bool × Device :=
  if d.bFail d.bCount then
    (false, { d with bCount := d.bCount + 1, trace := d.trace ++ [.bwrite v] })
  else
    (true, { d with brightness := natChars v,
                    bCount := d.bCount + 1,
                    trace := d.trace ++ [.bwrite v] })

/-- A trigger write: writing a mode name activates it; the attempt is
traced either way. -/
def writeT (d : Device) (t : List Char) : Bool × Device :=
  if d.tFail d.tCount then
    (false, { d with tCount := d.tCount + 1, trace := d.trace ++ [.twrite t] })
  else
    (true, { d with active := t,
                    tCount := d.tCount + 1,
                    trace := d.trace ++ [.twrite t] })

/-- A `thread::sleep`, recorded in the ghost trace. -/
def sleepE (d : Device) (ms : Nat) : Device :=
  { d with trace := d.trace ++ [.slept ms] }

/-- The `SysfsLed` resource (lib.rs lines 72-79); the two `fs::File`
handles are represented by the explicit `Device` state threaded through
every operation. -/
structure SysfsLed where
  max_brightness : Nat
  old_brightness : Nat
  trigger : Option (List Char)
  deriving DecidableEq, Repr

/-- Shallow embedding of `SysfsLed::new` (lib.rs lines 82-114): read
the three control files, open the trigger file, write `"none"` to it,
then parse `max_brightness` and `brightness` (trimmed) as `u32`, parse
the saved trigger blob, and open the brightness file — each fallible
step in the source's order, with errors propagated via `?`. The saved
trigger is read through `parseTriggerCore`; on a blob where the real
parser would panic (see `parseTriggerRun`) the real constructor panics
too, so the theorems below only read this field on devices whose
rendered blob is proved to parse without panicking
(`render_parse_run`). -/
def SysfsLed.new (d : Device) : Except Error SysfsLed × Device :=
  let blob := render d.active d.modes
  let maxs := d.maxB
  let olds := d.brightness
  if d.tOpenFail then (.error .Led, d)
  else
    match writeT d "none".data with
    | (false, d1) => (.error .Led, d1)
    | (true, d1) =>
      match parseU32? (trim maxs) with
      | none => (.error .ParseInt, d1)
      | some mx =>
        match parseU32? (trim olds) with
        | none => (.error .ParseInt, d1)
        | some ob =>
          if d.bOpenFail then (.error .Led, d1)
          else (.ok ⟨mx, ob, parseTriggerCore blob⟩, d1)

/-- `SysfsLed::set`: seek and write the value to the brightness file. -/
def SysfsLed.set (_led : SysfsLed) (d : Device) (v : Nat) : Bool × Device :=
  writeB d v

/-- `SysfsLed::on`: write the maximum brightness level. -/
def SysfsLed.on (led : SysfsLed) (d : Device) : Bool × Device :=
  led.set d led.max_brightness

/-- `SysfsLed::off`: write zero. -/
def SysfsLed.off (led : SysfsLed) (d : Device) : Bool × Device :=
  led.set d 0

/-- `SysfsLed::reset_trigger`: restore the saved trigger mode if one
was saved, otherwise do nothing and succeed. -/
def SysfsLed.reset_trigger (led : SysfsLed) (d : Device) : Bool × Device :=
  match led.trigger with
  | some t => writeT d t
  | none => (true, d)

/-- Outcome of running a Rust destructor. -/
inductive DropOutcome where
  | normal
  | panicked
  deriving DecidableEq, Repr

/-- Shallow embedding of `impl Drop for SysfsLed` (lib.rs lines
147-152): `self.set(self.old_brightness).unwrap()` then
`self.reset_trigger().unwrap()` — an `unwrap` of a failed restore
panics, and a panic on the first call prevents the second. -/
def SysfsLed.drop (led : SysfsLed) (d : Device) : DropOutcome × Device :=
  match led.set d led.old_brightness with
  | (false, d1) => (.panicked, d1)
  | (true, d1) =>
    match led.reset_trigger d1 with
    | (false, d2) => (.panicked, d2)
    | (true, d2) => (.normal, d2)

/-- Brightness operations a caller may issue between acquire and
release. -/
inductive Op where
  | on
  | off
  | set (v : Nat)
  deriving DecidableEq, Repr

/-- Apply one caller operation to the device. -/
def applyOp (led : SysfsLed) (d : Device) : Op → Device
  | .on => (led.on d).2
  | .off => (led.off d).2
  | .set v => (led.set d v).2

/-- Apply a sequence of caller operations to the device. -/
def applyOps (led : SysfsLed) (ops : List Op) (d : Device) : Device :=
  ops.foldl (applyOp led) d

/-- Modelled from the spec: the `Symbol` enumeration (here `MSymbol`, since Mathlib takes the name `Symbol`) of the
`morseclock` library crate (whose source is not under src/),
as matched on by both binaries. -/
inductive MSymbol where
  | Short
  | Long
  | Break
  deriving DecidableEq, Repr

/-- Modelled from the spec: the `Format` enumeration of the
`morseclock` library crate. -/
inductive Format where
  | Hour12
  | Hour24
  deriving DecidableEq, Repr

/-- Modelled from the spec: the `Clock` value of the `morseclock`
library crate — an hour/minute snapshot plus the configured format. -/
structure Clock where
  hour : Nat
  minute : Nat
  format : Format
  deriving DecidableEq, Repr

/-- Modelled from the spec: `Clock::new`. -/
def Clock.new (hour minute : Nat) (format : Format) : Clock :=
  ⟨hour, minute, format⟩

/-- Decimal digits of `n`, most significant first, with structural
fuel. -/
def natDigitsAux : Nat → Nat → List Nat
  | 0, _ => []
  | fuel + 1, n =>
    if n < 10 then [n]
    else natDigitsAux fuel (n / 10) ++ [n % 10]

/-- Decimal digits of `n`, most significant first, no forced leading
zero (`0` renders as the single digit `0`). -/
def natDigits (n : Nat) : List Nat := natDigitsAux (n + 1) n

/-- Modelled from the spec: standard International Morse pattern of a
decimal digit (0 is five dashes, 1 is one dot then four dashes, …, 9 is
four dashes then one dot). -/
def digitMorse : Nat → List MSymbol
  | 0 => [.Long, .Long, .Long, .Long, .Long]
  | 1 => [.Short, .Long, .Long, .Long, .Long]
  | 2 => [.Short, .Short, .Long, .Long, .Long]
  | 3 => [.Short, .Short, .Short, .Long, .Long]
  | 4 => [.Short, .Short, .Short, .Short, .Long]
  | 5 => [.Short, .Short, .Short, .Short, .Short]
  | 6 => [.Long, .Short, .Short, .Short, .Short]
  | 7 => [.Long, .Long, .Short, .Short, .Short]
  | 8 => [.Long, .Long, .Long, .Short, .Short]
  | 9 => [.Long, .Long, .Long, .Long, .Short]
  | _ + 10 => []

/-- Modelled from the spec: the 12-hour transform, mapping 0 to 12 and
13 to 1. -/
def hour12 (h : Nat) : Nat := (h + 11) % 12 + 1

/-- Modelled from the spec: the symbol sequence a `Clock` yields — the
hour digits' patterns, one `Break`, then the zero-padded two-digit
minute's patterns. -/
def clockSymbols (c : Clock) : List MSymbol :=
  let h := match c.format with
    | .Hour12 => hour12 c.hour
    | .Hour24 => c.hour
  (natDigits h).foldr (fun dgt acc => digitMorse dgt ++ acc)
    (MSymbol.Break ::
      ([c.minute / 10, c.minute % 10].foldr (fun dgt acc => digitMorse dgt ++ acc) []))

/-- The `Args` structure of morseclock-bin/src/bin/hwclock.rs (lines
11-21): the millisecond durations computed by `args()`; the `user` and
`path` fields are opaque strings irrelevant to the scheduler and are
elided. Note there is no format field. -/
structure Args where
  base_duration : Nat
  break_duration : Nat
  short_on_duration : Nat
  short_off_duration : Nat
  long_on_duration : Nat
  long_off_duration : Nat
  deriving DecidableEq, Repr

/-- The clock constructed by each cycle of `app` in
morseclock-bin/src/bin/hwclock.rs (line 132): the format argument is
the literal `Format::Hour12`; `args` carries no format field at all. -/
def appClock (_a : Args) (hour minute : Nat) : Clock :=
  Clock.new hour minute Format.Hour12

/-- The symbol sequence one `app` cycle iterates over. -/
def appCycleSymbols (a : Args) (hour minute : Nat) : List MSymbol :=
  clockSymbols (appClock a hour minute)

/-- The clock constructed by `app` in morseclock-bin/src/bin/cli.rs
(line 10): again the literal `Format::Hour12`. -/
def cliClock (hour minute : Nat) : Clock :=
  Clock.new hour minute Format.Hour12

/-- Shallow embedding of `blink` (morseclock-bin/src/bin/hwclock.rs
lines 70-81): `led.on()?`, sleep for the on-duration, `led.off()?`,
sleep for the off-duration; a failed write propagates immediately. -/
def blink (led : SysfsLed) (onDur offDur : Nat) (d : Device) : Bool × Device :=
  match led.on d with
  | (false, d1) => (false, d1)
  | (true, d1) =>
    let d2 := sleepE d1 onDur
    match led.off d2 with
    | (false, d3) => (false, d3)
    | (true, d3) => (true, sleepE d3 offDur)

/-- How the symbol loop of one cycle ends. -/
inductive LoopExit where
  | normal
  | cancelled
  | failed
  deriving DecidableEq, Repr

/-- Shallow embedding of the symbol loop of `app`
(morseclock-bin/src/bin/hwclock.rs lines 134-158): for each symbol,
poll the cancellation flag (`ρ p` is the value observed by the `p`-th
poll; observing `false` breaks the outer loop), then either sleep for
`base_duration` (`Break`) or run `blink` with the short/long durations;
a `blink` error propagates via `?` and ends the loop. -/
def runSymbols (a : Args) (led : SysfsLed) (ρ : Nat → Bool) :
    List MSymbol → Nat → Device → LoopExit × Nat × Device
  | [], p, d => (.normal, p, d)
  | sym :: rest, p, d =>
    if ρ p then
      match sym with
      | .Break => runSymbols a led ρ rest (p + 1) (sleepE d a.base_duration)
      | .Short =>
        match blink led a.short_on_duration a.short_off_duration d with
        | (true, d') => runSymbols a led ρ rest (p + 1) d'
        | (false, d') => (.failed, p + 1, d')
      | .Long =>
        match blink led a.long_on_duration a.long_off_duration d with
        | (true, d') => runSymbols a led ρ rest (p + 1) d'
        | (false, d') => (.failed, p + 1, d')
    else (.cancelled, p + 1, d)

/-- Shallow embedding of the pause-slice loop of `app`
(morseclock-bin/src/bin/hwclock.rs lines 160-166):
`for _ in 0..break_repeats { if !running { break 'outer; } sleep }`.
Returns whether the loop broke because the flag was observed clear, and
how many slice sleeps it performed; `ρ p` is the value the `p`-th poll
observes. -/
def pauseLoop (ρ : Nat → Bool) : Nat → Nat → Bool × Nat
  | 0, _ => (false, 0)
  | n + 1, p =>
    if ρ p then
      let r := pauseLoop ρ n (p + 1)
      (r.1, r.2 + 1)
    else (true, 0)

/-- Shallow embedding of `approximate_pause_repeats`
(morseclock-bin/src/bin/hwclock.rs lines 83-95). -/
def approximate_pause_repeats (target_duration : Nat) : Nat × Nat :=
  if target_duration ≤ 200 then (target_duration, 1)
  else
    let approx_repeats := target_duration / 200
    let approx_break_duration := target_duration / approx_repeats
    (approx_break_duration, target_duration / approx_break_duration)

/-- The process exit code `main` (hwclock.rs lines 172-177) produces
for a symbol-loop outcome: `app` propagates a blink failure as `Err`,
and `main` maps `Err` to `process::exit(1)`. -/
def mainExitCode (e : LoopExit) : Nat :=
  if e = .failed then 1 else 0

/-- Number of brightness writes the symbol list requires (two per
pulse, none for a `Break`). -/
def numWrites : List MSymbol → Nat
  | [] => 0
  | .Break :: rest => numWrites rest
  | .Short :: rest => 2 + numWrites rest
  | .Long :: rest => 2 + numWrites rest

/-- Modelled from the spec: the event sequence of
`pulse(onDuration, offDuration)` — illuminate (write the maximum
level), suspend for the on-duration, extinguish (write zero), suspend
for the off-duration. -/
def pulseEvents (mx onDur offDur : Nat) : List Event :=
  [.bwrite mx, .slept onDur, .bwrite 0, .slept offDur]

/-- Modelled from the spec: the action mapped to each symbol — `Break`
sleeps for the base duration with no device write, `Short` is
`pulse(shortOn, shortOff)`, `Long` is `pulse(longOn, longOff)`. -/
def specSymbolAction (a : Args) (mx : Nat) : MSymbol → List Event
  | .Break => [.slept a.base_duration]
  | .Short => pulseEvents mx a.short_on_duration a.short_off_duration
  | .Long => pulseEvents mx a.long_on_duration a.long_off_duration

/-- Concrete device used by the C9 witness: `max_brightness` holds
non-numeric text, everything else is healthy. -/
def devBadMax : Device :=
  { modes := ["none".data, "heartbeat".data]
    active := "heartbeat".data
    brightness := "7".data
    maxB := "abc".data
    tOpenFail := false
    bOpenFail := false
    bFail := fun _ => false
    tFail := fun _ => false
    bCount := 0
    tCount := 0
    trace := [] }

/-- A `SysfsLed` whose acquisition saved brightness 7 and trigger mode
`heartbeat`. -/
def ledSaved : SysfsLed := ⟨255, 7, some "heartbeat".data⟩

/-- A device on which every brightness write fails (e.g. the LED
vanished), while trigger writes would still succeed. -/
def devAllBFail : Device :=
  { modes := ["none".data, "heartbeat".data]
    active := "none".data
    brightness := "7".data
    maxB := "255".data
    tOpenFail := false
    bOpenFail := false
    bFail := fun _ => true
    tFail := fun _ => false
    bCount := 0
    tCount := 0
    trace := [] }

/-- A fully healthy device: every write succeeds. -/
def devHealthy : Device :=
  { modes := ["none".data, "heartbeat".data]
    active := "none".data
    brightness := "3".data
    maxB := "255".data
    tOpenFail := false
    bOpenFail := false
    bFail := fun _ => false
    tFail := fun _ => false
    bCount := 0
    tCount := 0
    trace := [] }

/-- A healthy device whose active trigger mode is `heartbeat`. -/
def devRoundTrip : Device :=
  { modes := ["none".data, "heartbeat".data]
    active := "heartbeat".data
    brightness := "3".data
    maxB := "255".data
    tOpenFail := false
    bOpenFail := false
    bFail := fun _ => false
    tFail := fun _ => false
    bCount := 0
    tCount := 0
    trace := [] }

/-- Arguments used by the scheduler witnesses. -/
def argsW : Args := ⟨100, 1000, 30, 70, 80, 20⟩

/-- A resource handle with no saved trigger, used by the scheduler
witnesses. -/
def ledW : SysfsLed := ⟨255, 7, none⟩

/-- Flag used by the C6 witness: cleared from the third poll on. -/
def flagW : Nat → Bool := fun i => decide (i < 3)

/-- Device used by the C8 witness: the fourth brightness write (index
3, the second pulse's off-write) fails. -/
def devFailAt3 : Device :=
  { modes := ["none".data, "heartbeat".data]
    active := "none".data
    brightness := "3".data
    maxB := "255".data
    tOpenFail := false
    bOpenFail := false
    bFail := fun n => n == 3
    tFail := fun _ => false
    bCount := 0
    tCount := 0
    trace := [] }

lemma allowed_ne_rbracket {c : Char} (h : allowedChar c = true) : c ≠ ']' := by
  intro rfl_h
  subst rfl_h
  exact absurd h (by decide)

lemma allowed_ne_lbracket {c : Char} (h : allowedChar c = true) : c ≠ '[' := by
  intro rfl_h
  subst rfl_h
  exact absurd h (by decide)

lemma dropWhile_head_false {α : Type} {p : α → Bool} (l : List α) {c : α} {t : List α}
    (h : l.dropWhile p = c :: t) : p c = false := by
  have h0 := List.head?_dropWhile_not p l
  rw [h] at h0
  exact h0

/-- Claim C4: `DutyCycle::from_str` rejects (with `InvalidDutyCycle`)
exactly the parsed values that are `≤ 0` or `> 1`, and accepts (wrapping
the value) exactly the values in `(0, 1]`. -/
theorem dutyCycle_from_str_validation (v : ℚ) :
    (dutyCycleCheck v = .ok ⟨v⟩ ↔ 0 < v ∧ v ≤ 1) ∧
    (dutyCycleCheck v = .error .InvalidDutyCycle ↔ (v ≤ 0 ∨ 1 < v)) := by
  unfold dutyCycleCheck
  by_cases h : v ≤ 0 ∨ 1 < v
  · rw [if_pos h]
    constructor
    · constructor
      · intro he; simp at he
      · intro hv
        rcases h with h | h
        · exact absurd hv.1 (by linarith)
        · exact absurd hv.2 (by linarith)
    · exact ⟨fun _ => h, fun _ => rfl⟩
  · rw [if_neg h]
    push_neg at h
    constructor
    · exact ⟨fun _ => ⟨h.1, h.2⟩, fun _ => rfl⟩
    · constructor
      · intro he; simp at he
      · intro hv
        rcases hv with hv | hv
        · exact absurd hv (by linarith [h.1])
        · exact absurd hv (by linarith [h.2])

/-- Claim C5: for a requested pause of at most 200 ms the slicing is the
identity (one slice of the full duration); for a longer pause the slice
duration lies in `[200, 400)` ms, the repeat count is `t / slice`, and
the total sliced sleep approximates the request from below:
`slice * count ≤ t` with a shortfall below one slice. -/
theorem approximate_pause_repeats_spec (t : Nat) :
    (t ≤ 200 → approximate_pause_repeats t = (t, 1)) ∧
    (200 < t →
      200 ≤ (approximate_pause_repeats t).1 ∧
      (approximate_pause_repeats t).1 < 400 ∧
      (approximate_pause_repeats t).2 = t / (approximate_pause_repeats t).1 ∧
      (approximate_pause_repeats t).1 * (approximate_pause_repeats t).2 ≤ t ∧
      t - (approximate_pause_repeats t).1 * (approximate_pause_repeats t).2
        < (approximate_pause_repeats t).1) := by
  constructor
  · intro h
    simp [approximate_pause_repeats, h]
  · intro h
    have hn : ¬ t ≤ 200 := by omega
    have heq : approximate_pause_repeats t = (t / (t / 200), t / (t / (t / 200))) := by
      simp [approximate_pause_repeats, hn]
    rw [heq]
    dsimp only
    have hdm : 200 * (t / 200) + t % 200 = t := Nat.div_add_mod t 200
    have hmod : t % 200 < 200 := Nat.mod_lt _ (by norm_num)
    have hrpos : 0 < t / 200 := by omega
    have hs200 : 200 ≤ t / (t / 200) := (Nat.le_div_iff_mul_le hrpos).2 (by omega)
    have hspos : 0 < t / (t / 200) := by omega
    have hs400 : t / (t / 200) < 400 := by
      by_cases ht : t < 400
      · have hr1 : t / 200 = 1 := by omega
        rw [hr1, Nat.div_one]
        omega
      · exact (Nat.div_lt_iff_lt_mul hrpos).2 (by omega)
    have hdm2 : (t / (t / 200)) * (t / (t / (t / 200))) + t % (t / (t / 200)) = t :=
      Nat.div_add_mod t (t / (t / 200))
    have hmod2 : t % (t / (t / 200)) < t / (t / 200) := Nat.mod_lt _ hspos
    exact ⟨hs200, hs400, rfl, by omega, by omega⟩

/-- Claim C6: the pause-slice loop polls the cancellation flag before
every slice sleep, so if the `k`-th poll (counting from the loop's first
poll) would observe the flag clear, at most `k` slice sleeps are
performed; with a monotone flag (never spuriously reset) and slices
remaining, the loop moreover breaks out as cancelled rather than
completing the full pause. -/
theorem pauseLoop_cancellation_latency (ρ : Nat → Bool) (n p k : Nat)
    (hk : ρ (p + k) = false) :
    (pauseLoop ρ n p).2 ≤ k ∧
    ((∀ i j, i ≤ j → ρ i = false → ρ j = false) → k < n →
      (pauseLoop ρ n p).1 = true) := by
  induction n generalizing p k with
  | zero => exact ⟨Nat.zero_le _, fun _ hlt => absurd hlt (Nat.not_lt_zero _)⟩
  | succ m ih =>
    by_cases hp : ρ p = true
    · have hk0 : k ≠ 0 := by
        intro h0
        rw [h0, Nat.add_zero] at hk
        rw [hk] at hp
        cases hp
      obtain ⟨k', rfl⟩ : ∃ k', k = k' + 1 := ⟨k - 1, by omega⟩
      have hk' : ρ ((p + 1) + k') = false := by
        rw [show (p + 1) + k' = p + (k' + 1) by omega]
        exact hk
      have hrec := ih (p + 1) k' hk'
      simp only [pauseLoop, hp, if_true]
      exact ⟨by omega, fun hmono hlt => hrec.2 hmono (by omega)⟩
    · have hp' : ρ p = false := by revert hp; cases ρ p <;> simp
      simp [pauseLoop, hp']

/-- Claim C10: both shipped binaries construct their `Clock` with the
literal `Format::Hour12`, for every hour, minute and configuration; the
configuration carries no format field, and the 12-hour encoding really
differs from the 24-hour one, so a 24-hour encoding is never produced. -/
theorem format_hour12_hardcoded :
    (∀ (a : Args) (h m : Nat), (appClock a h m).format = Format.Hour12 ∧
      appCycleSymbols a h m = clockSymbols (Clock.new h m Format.Hour12)) ∧
    (∀ h m : Nat, (cliClock h m).format = Format.Hour12) ∧
    clockSymbols (Clock.new 13 5 Format.Hour12) ≠
      clockSymbols (Clock.new 13 5 Format.Hour24) :=
  ⟨fun _ _ _ => ⟨rfl, rfl⟩, fun _ _ => rfl, by decide⟩

lemma parseTriggerCore_eq_spec : ∀ cs : List Char,
    parseTriggerCore cs = specTriggerParse cs := by
  intro cs
  unfold parseTriggerCore specTriggerParse
  cases hdw : cs.dropWhile (fun c => c != '[') with
  | nil => rfl
  | cons a rest =>
    dsimp only
    have hsplit : rest.takeWhile allowedChar ++ rest.dropWhile allowedChar = rest := by
      simp
    by_cases hre : rest.takeWhile allowedChar = []
    · rw [if_pos hre]
      cases rest with
      | nil => simp
      | cons c tl =>
        have hc : allowedChar c = false := by
          by_contra hcc
          have hct : allowedChar c = true := by
            revert hcc; cases allowedChar c <;> simp
          rw [List.takeWhile_cons_of_pos hct] at hre
          cases hre
        by_cases hcb : c = ']'
        · subst hcb
          rw [if_pos (show ']' ∈ ']' :: tl by simp)]
          rw [List.takeWhile_cons_of_neg (by simp)]
          rw [if_pos (Or.inl rfl)]
        · by_cases hmem : ']' ∈ c :: tl
          · rw [if_pos hmem]
            rw [List.takeWhile_cons_of_pos (by simpa [bne_iff_ne] using hcb)]
            have hno : ¬ (∀ x ∈ c :: tl.takeWhile (fun x => x != ']'),
                allowedChar x = true) := by
              intro hall
              have hx := hall c (by simp)
              rw [hc] at hx
              simp at hx
            rw [if_pos (Or.inr (Or.inr hno))]
          · rw [if_neg hmem]
    · rw [if_neg hre]
      have hallrun : ∀ x ∈ rest.takeWhile allowedChar, allowedChar x = true :=
        fun x hx => List.mem_takeWhile_imp hx
      cases hrm : rest.dropWhile allowedChar with
      | nil =>
        rw [if_neg (by simp)]
        have hrr : rest.takeWhile allowedChar = rest := by
          rw [hrm] at hsplit
          simpa using hsplit
        have hnomem : ']' ∉ rest := by
          intro hm
          rw [← hrr] at hm
          exact absurd (List.mem_takeWhile_imp hm) (by decide)
        rw [if_neg hnomem]
      | cons c tl =>
        have hc : allowedChar c = false := dropWhile_head_false rest hrm
        have hrr : rest = rest.takeWhile allowedChar ++ c :: tl := by
          rw [hrm] at hsplit
          exact hsplit.symm
        by_cases hcb : c = ']'
        · subst hcb
          rw [if_pos (show (']' :: tl).head? = some ']' from rfl)]
          have hmem : ']' ∈ rest := by
            rw [hrr]
            exact List.mem_append_right _ (by simp)
          rw [if_pos hmem]
          have hs : rest.takeWhile (fun x => x != ']') = rest.takeWhile allowedChar := by
            conv_lhs => rw [hrr]
            rw [List.takeWhile_append_of_pos (fun x hx => by
              simpa [bne_iff_ne] using allowed_ne_rbracket (hallrun x hx))]
            rw [List.takeWhile_cons_of_neg (by simp)]
            simp
          rw [hs]
          by_cases hn : rest.takeWhile allowedChar = "none".data
          · rw [if_pos hn, if_pos (Or.inr (Or.inl hn))]
          · rw [if_neg hn, if_neg ?_]
            intro hcond
            rcases hcond with h1 | h2 | h3
            · exact hre h1
            · exact hn h2
            · exact h3 hallrun
        · rw [if_neg (by simpa using hcb)]
          by_cases hmem : ']' ∈ rest
          · rw [if_pos hmem]
            have hs : rest.takeWhile (fun x => x != ']')
                = rest.takeWhile allowedChar ++ c :: tl.takeWhile (fun x => x != ']') := by
              conv_lhs => rw [hrr]
              rw [List.takeWhile_append_of_pos (fun x hx => by
                simpa [bne_iff_ne] using allowed_ne_rbracket (hallrun x hx))]
              rw [List.takeWhile_cons_of_pos (by simpa [bne_iff_ne] using hcb)]
            have hno : ¬ (∀ x ∈ rest.takeWhile (fun x => x != ']'),
                allowedChar x = true) := by
              intro hall
              have hcmem : c ∈ rest.takeWhile (fun x => x != ']') := by
                rw [hs]
                exact List.mem_append_right _ (by simp)
              have hx := hall c hcmem
              rw [hc] at hx
              simp at hx
            rw [if_pos (Or.inr (Or.inr hno))]
          · rw [if_neg hmem]

lemma digitChar_spec : ∀ d : Nat, d < 10 →
    isDigitC (Nat.digitChar d) = true ∧ charVal (Nat.digitChar d) = d := by
  decide

lemma digitsVal_append_singleton (xs : List Char) (c : Char) :
    digitsVal (xs ++ [c]) = 10 * digitsVal xs + charVal c := by
  unfold digitsVal
  rw [List.foldl_append]
  simp

lemma natCharsAux_spec : ∀ fuel n : Nat, n < fuel →
    natCharsAux fuel n ≠ [] ∧ (∀ c ∈ natCharsAux fuel n, isDigitC c = true) ∧
    digitsVal (natCharsAux fuel n) = n := by
  intro fuel
  induction fuel with
  | zero => intro n h; exact absurd h (Nat.not_lt_zero n)
  | succ f ih =>
    intro n hn
    by_cases h10 : n < 10
    · have hd := digitChar_spec n h10
      simp only [natCharsAux, if_pos h10]
      refine ⟨by simp, ?_, ?_⟩
      · intro c hc
        simp only [List.mem_singleton] at hc
        subst hc
        exact hd.1
      · simp only [digitsVal, List.foldl_cons, List.foldl_nil]
        omega
    · have hlt : n / 10 < n := Nat.div_lt_self (by omega) (by norm_num)
      have hdiv : n / 10 < f := by omega
      have ihh := ih (n / 10) hdiv
      have hd := digitChar_spec (n % 10) (Nat.mod_lt _ (by norm_num))
      simp only [natCharsAux, if_neg h10]
      refine ⟨by simp, ?_, ?_⟩
      · intro c hc
        rcases List.mem_append.1 hc with hc | hc
        · exact ihh.2.1 c hc
        · simp only [List.mem_singleton] at hc
          subst hc
          exact hd.1
      · rw [digitsVal_append_singleton, ihh.2.2, hd.2]
        omega

lemma natChars_spec (n : Nat) :
    natChars n ≠ [] ∧ (∀ c ∈ natChars n, isDigitC c = true) ∧
    digitsVal (natChars n) = n :=
  natCharsAux_spec (n + 1) n (Nat.lt_succ_self n)

lemma digit_not_ws {c : Char} (h : isDigitC c = true) : isWsC c = false := by
  cases hw : isWsC c
  · rfl
  · exfalso
    unfold isWsC at hw
    simp only [Bool.or_eq_true, beq_iff_eq] at hw
    rcases hw with ((rfl | rfl) | rfl) | rfl <;> exact absurd h (by decide)

lemma digit_ne_plus {c : Char} (h : isDigitC c = true) : c ≠ '+' := by
  intro he
  subst he
  exact absurd h (by decide)

lemma trim_digits {cs : List Char} (hall : ∀ c ∈ cs, isDigitC c = true) :
    trim cs = cs := by
  unfold trim
  have h1 : cs.dropWhile isWsC = cs := by
    cases cs with
    | nil => rfl
    | cons c t =>
      exact List.dropWhile_cons_of_neg (by simp [digit_not_ws (hall c (by simp))])
  rw [h1]
  have h2 : cs.reverse.dropWhile isWsC = cs.reverse := by
    cases hr : cs.reverse with
    | nil => rfl
    | cons c t =>
      have hcmem : c ∈ cs := by
        have hm : c ∈ cs.reverse := by rw [hr]; simp
        simpa using hm
      exact List.dropWhile_cons_of_neg (by simp [digit_not_ws (hall c hcmem)])
  rw [h2, List.reverse_reverse]

lemma parseU32_natChars {v : Nat} (hv : v < 4294967296) :
    parseU32? (trim (natChars v)) = some v := by
  obtain ⟨hne, hall, hval⟩ := natChars_spec v
  rw [trim_digits hall]
  have hhead : ¬ (natChars v).head? = some '+' := by
    cases hcs : natChars v with
    | nil => exact absurd hcs hne
    | cons c t =>
      simp only [List.head?_cons, Option.some.injEq]
      intro he
      exact digit_ne_plus (hall c (by rw [hcs]; simp)) he
  unfold parseU32?
  rw [if_neg hhead]
  unfold parseU32core
  rw [if_pos ⟨hne, hall⟩, if_pos (by rw [hval]; exact hv), hval]

lemma parseU32core_lt {l : List Char} {v : Nat} (h : parseU32core l = some v) :
    v < 4294967296 := by
  unfold parseU32core at h
  by_cases h1 : l ≠ [] ∧ (∀ c ∈ l, isDigitC c = true)
  · rw [if_pos h1] at h
    by_cases h2 : digitsVal l < 4294967296
    · rw [if_pos h2] at h
      cases h
      exact h2
    · rw [if_neg h2] at h
      cases h
  · rw [if_neg h1] at h
    cases h

lemma parseU32_lt {cs : List Char} {v : Nat} (h : parseU32? cs = some v) :
    v < 4294967296 :=
  parseU32core_lt h

lemma parseTriggerCore_congr {cs₁ cs₂ : List Char}
    (h : cs₁.dropWhile (fun c => c != '[') = cs₂.dropWhile (fun c => c != '[')) :
    parseTriggerCore cs₁ = parseTriggerCore cs₂ := by
  unfold parseTriggerCore
  rw [h]

lemma parse_bracketed (m tail : List Char) (hne : m ≠ [])
    (hall : ∀ c ∈ m, allowedChar c = true) :
    parseTriggerCore ('[' :: (m ++ ']' :: tail)) =
      if m = "none".data then none else some m := by
  unfold parseTriggerCore
  rw [List.dropWhile_cons_of_neg (by simp)]
  dsimp only
  have h1 : (m ++ ']' :: tail).takeWhile allowedChar = m := by
    rw [List.takeWhile_append_of_pos hall, List.takeWhile_cons_of_neg (by decide)]
    simp
  have h2 : (m ++ ']' :: tail).dropWhile allowedChar = ']' :: tail := by
    rw [List.dropWhile_append_of_pos hall, List.dropWhile_cons_of_neg (by decide)]
  rw [h1, h2, if_neg hne, if_pos (show (']' :: tail).head? = some ']' from rfl)]

lemma render_parse (modes : List (List Char)) (active : List Char)
    (hwf : ∀ m ∈ modes, m ≠ [] ∧ (∀ c ∈ m, allowedChar c = true))
    (hmem : active ∈ modes) :
    parseTriggerCore (render active modes) =
      if active = "none".data then none else some active := by
  induction modes with
  | nil => cases hmem
  | cons m ms ih =>
    by_cases hm : m = active
    · subst hm
      obtain ⟨hne, hall⟩ := hwf m (by simp)
      cases ms with
      | nil =>
        show parseTriggerCore (renderItem m m) = _
        rw [renderItem, if_pos rfl]
        have hsh : '[' :: (m ++ [']']) = '[' :: (m ++ ']' :: ([] : List Char)) := rfl
        rw [hsh, parse_bracketed m [] hne hall]
      | cons m2 ms2 =>
        show parseTriggerCore (renderItem m m ++ ' ' :: render m (m2 :: ms2)) = _
        rw [renderItem, if_pos rfl]
        have hsh : ('[' :: (m ++ [']'])) ++ ' ' :: render m (m2 :: ms2)
            = '[' :: (m ++ ']' :: (' ' :: render m (m2 :: ms2))) := by
          simp
        rw [hsh, parse_bracketed m (' ' :: render m (m2 :: ms2)) hne hall]
    · have hmem' : active ∈ ms := by
        rcases List.mem_cons.1 hmem with h | h
        · exact absurd h.symm hm
        · exact h
      cases ms with
      | nil => cases hmem'
      | cons m2 ms2 =>
        obtain ⟨hne, hall⟩ := hwf m (by simp)
        show parseTriggerCore (renderItem active m ++ ' ' :: render active (m2 :: ms2)) = _
        rw [renderItem, if_neg hm]
        have hreq : (m ++ ' ' :: render active (m2 :: ms2)).dropWhile (fun c => c != '[')
            = (render active (m2 :: ms2)).dropWhile (fun c => c != '[') := by
          rw [show m ++ ' ' :: render active (m2 :: ms2)
              = (m ++ [' ']) ++ render active (m2 :: ms2) by simp]
          exact List.dropWhile_append_of_pos (by
            intro x hx
            rcases List.mem_append.1 hx with hx | hx
            · simpa [bne_iff_ne] using allowed_ne_lbracket (hall x hx)
            · simp only [List.mem_singleton] at hx
              subst hx
              simp)
        rw [parseTriggerCore_congr hreq]
        exact ih (fun x hx => hwf x (by simp [hx])) hmem'

lemma writeB_succ (d : Device) (v : Nat) (h : d.bFail d.bCount = false) :
    writeB d v = (true, { d with brightness := natChars v,
                                 bCount := d.bCount + 1,
                                 trace := d.trace ++ [.bwrite v] }) := by
  simp [writeB, h]

lemma writeB_fail (d : Device) (v : Nat) (h : d.bFail d.bCount = true) :
    writeB d v = (false, { d with bCount := d.bCount + 1,
                                  trace := d.trace ++ [.bwrite v] }) := by
  simp [writeB, h]

lemma writeT_succ (d : Device) (t : List Char) (h : d.tFail d.tCount = false) :
    writeT d t = (true, { d with active := t,
                                 tCount := d.tCount + 1,
                                 trace := d.trace ++ [.twrite t] }) := by
  simp [writeT, h]

lemma writeT_fail (d : Device) (t : List Char) (h : d.tFail d.tCount = true) :
    writeT d t = (false, { d with tCount := d.tCount + 1,
                                  trace := d.trace ++ [.twrite t] }) := by
  simp [writeT, h]

lemma new_success (d : Device) (b mx : Nat)
    (hto : d.tOpenFail = false) (htw : d.tFail d.tCount = false)
    (hbo : d.bOpenFail = false)
    (hb : parseU32? (trim d.brightness) = some b)
    (hmx : parseU32? (trim d.maxB) = some mx) :
    SysfsLed.new d =
      (.ok ⟨mx, b, parseTriggerCore (render d.active d.modes)⟩,
       { d with active := "none".data, tCount := d.tCount + 1,
                trace := d.trace ++ [.twrite "none".data] }) := by
  unfold SysfsLed.new
  rw [writeT_succ d _ htw]
  simp [hto, hbo, hb, hmx]

/-- Claim C9: whenever `SysfsLed::new` gets as far as writing `"none"`
to the trigger control (the trigger file opened and the write
succeeded) and then fails for any reason — a non-numeric
`max_brightness` or `brightness`, or a failed brightness-file open —
it returns an error while the trigger endpoint is left holding
`"none"`: the previously active mode is not restored. -/
theorem sysfsLed_new_failure_leaves_none (d : Device) (e : Error)
    (hto : d.tOpenFail = false) (htw : d.tFail d.tCount = false)
    (herr : (SysfsLed.new d).1 = .error e) :
    (SysfsLed.new d).2.active = "none".data := by
  unfold SysfsLed.new at herr ⊢
  rw [writeT_succ d _ htw] at herr ⊢
  simp only [hto, Bool.false_eq_true, if_false] at herr ⊢
  cases hmx : parseU32? (trim d.maxB) with
  | none => simp [hmx]
  | some mx =>
    cases hb : parseU32? (trim d.brightness) with
    | none => simp [hmx, hb]
    | some b =>
      cases hbo : d.bOpenFail with
      | true => simp [hmx, hb, hbo]
      | false => simp [hmx, hb, hbo] at herr

/-- Witness for claim C9: on `devBadMax` (previously active mode
`heartbeat`), `new` fails with a parse error and the trigger endpoint
is left holding `none`. -/
theorem sysfsLed_new_failure_leaves_none_witness :
    (SysfsLed.new devBadMax).1 = .error .ParseInt ∧
    (SysfsLed.new devBadMax).2.active = "none".data :=
  ⟨rfl, sysfsLed_new_failure_leaves_none devBadMax .ParseInt rfl rfl rfl⟩

/-- Claim C1 (amended): releasing the resource unconditionally attempts
to restore the saved brightness first (the attempt is always the next
traced event); if that write succeeds and a saved trigger mode existed,
the mode name is written back; but a restoration failure is not
logged/ignored — the `Drop` impl `unwrap`s it and panics, and a failed
brightness restore skips the trigger restore entirely. -/
theorem sysfsLed_drop_restoration (led : SysfsLed) (d : Device) :
    ((led.drop d).2.trace = d.trace ++ Event.bwrite led.old_brightness ::
        (if d.bFail d.bCount = true then []
         else match led.trigger with
           | some t => [Event.twrite t]
           | none => [])) ∧
    (d.bFail d.bCount = true → (led.drop d).1 = .panicked) ∧
    (d.bFail d.bCount = false →
      (led.drop d).2.brightness = natChars led.old_brightness ∧
      (led.trigger = none →
        (led.drop d).1 = .normal ∧ (led.drop d).2.active = d.active) ∧
      (∀ t, led.trigger = some t →
        (d.tFail d.tCount = true → (led.drop d).1 = .panicked) ∧
        (d.tFail d.tCount = false →
          (led.drop d).1 = .normal ∧ (led.drop d).2.active = t))) := by
  cases hb : d.bFail d.bCount with
  | true =>
    simp only [SysfsLed.drop, SysfsLed.set]
    rw [writeB_fail d _ hb]
    simp [hb]
  | false =>
    simp only [SysfsLed.drop, SysfsLed.set]
    rw [writeB_succ d _ hb]
    cases htr : led.trigger with
    | none =>
      simp [SysfsLed.reset_trigger, htr, hb]
    | some t0 =>
      cases ht : d.tFail d.tCount with
      | true =>
        simp [SysfsLed.reset_trigger, htr, hb, writeT, ht]
      | false =>
        simp [SysfsLed.reset_trigger, htr, hb, writeT, ht]

/-- Counterexample for claim C1 as stated: a saved trigger mode existed
and restoration was attempted, yet the failed brightness restore is
re-raised as a panic instead of being logged/ignored, and the saved
mode name is never written back (no trigger-write event; the endpoint
still holds `none`, not `heartbeat`). -/
theorem sysfsLed_drop_failure_not_ignored :
    (ledSaved.drop devAllBFail).1 = DropOutcome.panicked ∧
    (ledSaved.drop devAllBFail).2.trace = [Event.bwrite 7] ∧
    (ledSaved.drop devAllBFail).2.active ≠ "heartbeat".data :=
  ⟨rfl, rfl, by decide⟩

/-- Witness for claim C1 (amended), on the healthy device: the drop
restores brightness 7 and trigger mode `heartbeat` and finishes
normally. -/
theorem sysfsLed_drop_restoration_witness :
    (ledSaved.drop devHealthy).1 = DropOutcome.normal ∧
    (ledSaved.drop devHealthy).2.active = "heartbeat".data ∧
    (ledSaved.drop devHealthy).2.brightness = natChars 7 := by
  have h := sysfsLed_drop_restoration ledSaved devHealthy
  exact ⟨(((h.2.2 rfl).2.2 "heartbeat".data rfl).2 rfl).1,
         (((h.2.2 rfl).2.2 "heartbeat".data rfl).2 rfl).2,
         (h.2.2 rfl).1⟩

lemma drop_success_none (led : SysfsLed) (d : Device)
    (htr : led.trigger = none) (hb : d.bFail d.bCount = false) :
    led.drop d = (.normal,
      { d with brightness := natChars led.old_brightness,
               bCount := d.bCount + 1,
               trace := d.trace ++ [.bwrite led.old_brightness] }) := by
  simp only [SysfsLed.drop, SysfsLed.set]
  rw [writeB_succ d _ hb]
  simp [SysfsLed.reset_trigger, htr]

lemma drop_success_some (led : SysfsLed) (d : Device) (t : List Char)
    (htr : led.trigger = some t)
    (hb : d.bFail d.bCount = false) (ht : d.tFail d.tCount = false) :
    led.drop d = (.normal,
      { d with brightness := natChars led.old_brightness,
               active := t,
               bCount := d.bCount + 1, tCount := d.tCount + 1,
               trace := d.trace ++ [.bwrite led.old_brightness, .twrite t] }) := by
  simp only [SysfsLed.drop, SysfsLed.set]
  rw [writeB_succ d _ hb]
  simp [SysfsLed.reset_trigger, htr, writeT, ht]

lemma applyOp_fields (led : SysfsLed) (d : Device) (op : Op) :
    (applyOp led d op).active = d.active ∧
    (applyOp led d op).bCount = d.bCount + 1 ∧
    (applyOp led d op).tCount = d.tCount ∧
    (applyOp led d op).bFail = d.bFail ∧
    (applyOp led d op).tFail = d.tFail := by
  cases op <;>
    simp only [applyOp, SysfsLed.on, SysfsLed.off, SysfsLed.set, writeB] <;>
    split <;> simp

lemma applyOps_fields (led : SysfsLed) (ops : List Op) : ∀ d : Device,
    (applyOps led ops d).active = d.active ∧
    (applyOps led ops d).bCount = d.bCount + ops.length ∧
    (applyOps led ops d).tCount = d.tCount ∧
    (applyOps led ops d).bFail = d.bFail ∧
    (applyOps led ops d).tFail = d.tFail := by
  induction ops with
  | nil => intro d; simp [applyOps]
  | cons op rest ih =>
    intro d
    have hstep := applyOp_fields led d op
    have hrec := ih (applyOp led d op)
    unfold applyOps at hrec ⊢
    rw [List.foldl_cons]
    refine ⟨hrec.1.trans hstep.1, ?_,
            hrec.2.2.1.trans hstep.2.2.1,
            hrec.2.2.2.1.trans hstep.2.2.2.1,
            hrec.2.2.2.2.trans hstep.2.2.2.2⟩
    rw [hrec.2.1, hstep.2.1]
    simp only [List.length_cons]
    omega

/-- Claim C2: on a well-formed device (numeric brightness and
max_brightness, trigger modes alphanumeric-or-hyphen with the active
one among them) whose restoration writes succeed (together with the
`"none"` write acquisition itself needs), acquire followed by any
number of `on`/`off`/`set` calls followed by release leaves the
brightness endpoint and the active trigger mode exactly at their
pre-acquisition values. -/
theorem sysfsLed_round_trip (d : Device) (ops : List Op) (b mx : Nat)
    (hto : d.tOpenFail = false) (hbo : d.bOpenFail = false)
    (htw0 : d.tFail d.tCount = false) (htw1 : d.tFail (d.tCount + 1) = false)
    (hbw : d.bFail (d.bCount + ops.length) = false)
    (hwf : ∀ m ∈ d.modes, m ≠ [] ∧ (∀ c ∈ m, allowedChar c = true))
    (hmem : d.active ∈ d.modes)
    (hb : parseU32? (trim d.brightness) = some b)
    (hmx : parseU32? (trim d.maxB) = some mx) :
    ∃ led : SysfsLed, (SysfsLed.new d).1 = .ok led ∧
      (led.drop (applyOps led ops (SysfsLed.new d).2)).1 = DropOutcome.normal ∧
      parseU32? (trim (led.drop (applyOps led ops (SysfsLed.new d).2)).2.brightness)
        = some b ∧
      (led.drop (applyOps led ops (SysfsLed.new d).2)).2.active = d.active := by
  have hnew := new_success d b mx hto htw0 hbo hb hmx
  have hparse := render_parse d.modes d.active hwf hmem
  refine ⟨⟨mx, b, parseTriggerCore (render d.active d.modes)⟩, by rw [hnew], ?_⟩
  rw [hnew]
  dsimp only
  set led0 : SysfsLed := ⟨mx, b, parseTriggerCore (render d.active d.modes)⟩ with hled0
  set d1 : Device := { d with active := "none".data, tCount := d.tCount + 1,
                              trace := d.trace ++ [.twrite "none".data] } with hd1
  have hf := applyOps_fields led0 ops d1
  set d2 : Device := applyOps led0 ops d1 with hd2
  have h2active : d2.active = "none".data := hf.1
  have h2bCount : d2.bCount = d.bCount + ops.length := hf.2.1
  have h2tCount : d2.tCount = d.tCount + 1 := hf.2.2.1
  have h2bFail : d2.bFail = d.bFail := hf.2.2.2.1
  have h2tFail : d2.tFail = d.tFail := hf.2.2.2.2
  have hbF : d2.bFail d2.bCount = false := by
    rw [h2bFail, h2bCount]
    exact hbw
  have hrt : parseU32? (trim (natChars led0.old_brightness)) = some b := by
    rw [show led0.old_brightness = b from rfl]
    exact parseU32_natChars (parseU32_lt hb)
  by_cases hnone : d.active = "none".data
  · have htr : led0.trigger = none := by
      rw [show led0.trigger = parseTriggerCore (render d.active d.modes) from rfl,
          hparse, if_pos hnone]
    rw [drop_success_none led0 d2 htr hbF]
    refine ⟨rfl, hrt, ?_⟩
    show d2.active = d.active
    rw [h2active, hnone]
  · have htr : led0.trigger = some d.active := by
      rw [show led0.trigger = parseTriggerCore (render d.active d.modes) from rfl,
          hparse, if_neg hnone]
    have htF : d2.tFail d2.tCount = false := by
      rw [h2tFail, h2tCount]
      exact htw1
    rw [drop_success_some led0 d2 d.active htr hbF htF]
    exact ⟨rfl, hrt, rfl⟩

/-- Witness for claim C2: acquire, three brightness operations, then
release on `devRoundTrip` restores brightness 3 and mode `heartbeat`. -/
theorem sysfsLed_round_trip_witness :
    ∃ led : SysfsLed, (SysfsLed.new devRoundTrip).1 = .ok led ∧
      (led.drop (applyOps led [Op.on, Op.off, Op.set 9]
        (SysfsLed.new devRoundTrip).2)).1 = DropOutcome.normal ∧
      parseU32? (trim (led.drop (applyOps led [Op.on, Op.off, Op.set 9]
        (SysfsLed.new devRoundTrip).2)).2.brightness) = some 3 ∧
      (led.drop (applyOps led [Op.on, Op.off, Op.set 9]
        (SysfsLed.new devRoundTrip).2)).2.active = devRoundTrip.active :=
  sysfsLed_round_trip devRoundTrip [Op.on, Op.off, Op.set 9] 3 255
    rfl rfl rfl rfl rfl (by decide) (by decide) (by decide) (by decide)

lemma blink_success (led : SysfsLed) (onD offD : Nat) (d : Device)
    (h0 : d.bFail d.bCount = false) (h1 : d.bFail (d.bCount + 1) = false) :
    blink led onD offD d =
      (true, { d with brightness := natChars 0,
                      bCount := d.bCount + 2,
                      trace := d.trace ++ pulseEvents led.max_brightness onD offD }) := by
  simp only [blink, SysfsLed.on, SysfsLed.off, SysfsLed.set]
  rw [writeB_succ d _ h0]
  simp only [sleepE]
  rw [writeB_succ _ 0 h1]
  simp [pulseEvents]

/-- Claim C7: with the cancellation flag always observed set (running)
and no write failures, the symbol loop checks the flag once per symbol
and performs exactly the mapped action for each symbol in order —
`Break` sleeps for the base duration with no device write, `Short` and
`Long` run `pulse(on, off)`: write max brightness, sleep the
on-duration, write zero, sleep the off-duration. -/
theorem runSymbols_action_mapping (a : Args) (led : SysfsLed) (ρ : Nat → Bool)
    (syms : List MSymbol) :
    ∀ (p : Nat) (d : Device), (∀ i, ρ i = true) → (∀ n, d.bFail n = false) →
    (runSymbols a led ρ syms p d).1 = .normal ∧
    (runSymbols a led ρ syms p d).2.1 = p + syms.length ∧
    (runSymbols a led ρ syms p d).2.2.trace
      = d.trace ++ syms.flatMap (specSymbolAction a led.max_brightness) := by
  induction syms with
  | nil =>
    intro p d _ _
    simp [runSymbols]
  | cons s rest ih =>
    intro p d hρ hok
    have hρp := hρ p
    cases s with
    | Break =>
      simp only [runSymbols, hρp, if_true]
      have hrec := ih (p + 1) (sleepE d a.base_duration) hρ (fun n => hok n)
      refine ⟨hrec.1, ?_, ?_⟩
      · rw [hrec.2.1]
        simp only [List.length_cons]
        omega
      · rw [hrec.2.2]
        simp [sleepE, specSymbolAction]
    | Short =>
      simp only [runSymbols, hρp, if_true]
      rw [blink_success led _ _ d (hok _) (hok _)]
      have hrec := ih (p + 1)
        { d with brightness := natChars 0, bCount := d.bCount + 2,
                 trace := d.trace ++ pulseEvents led.max_brightness
                   a.short_on_duration a.short_off_duration }
        hρ (fun n => hok n)
      refine ⟨hrec.1, ?_, ?_⟩
      · rw [hrec.2.1]
        simp only [List.length_cons]
        omega
      · rw [hrec.2.2]
        simp [specSymbolAction]
    | Long =>
      simp only [runSymbols, hρp, if_true]
      rw [blink_success led _ _ d (hok _) (hok _)]
      have hrec := ih (p + 1)
        { d with brightness := natChars 0, bCount := d.bCount + 2,
                 trace := d.trace ++ pulseEvents led.max_brightness
                   a.long_on_duration a.long_off_duration }
        hρ (fun n => hok n)
      refine ⟨hrec.1, ?_, ?_⟩
      · rw [hrec.2.1]
        simp only [List.length_cons]
        omega
      · rw [hrec.2.2]
        simp [specSymbolAction]

/-- Witness for claim C7: running `[Short, Break, Long]` with the flag
set and a healthy device exits normally after three polls and traces
exactly the mapped pulse/sleep events. -/
theorem runSymbols_action_mapping_witness :
    (runSymbols argsW ledW (fun _ => true)
      [MSymbol.Short, MSymbol.Break, MSymbol.Long] 0 devHealthy).1
      = LoopExit.normal ∧
    (runSymbols argsW ledW (fun _ => true)
      [MSymbol.Short, MSymbol.Break, MSymbol.Long] 0 devHealthy).2.1 = 0 + 3 ∧
    (runSymbols argsW ledW (fun _ => true)
      [MSymbol.Short, MSymbol.Break, MSymbol.Long] 0 devHealthy).2.2.trace
      = devHealthy.trace ++
        [MSymbol.Short, MSymbol.Break, MSymbol.Long].flatMap
          (specSymbolAction argsW ledW.max_brightness) :=
  runSymbols_action_mapping argsW ledW (fun _ => true)
    [MSymbol.Short, MSymbol.Break, MSymbol.Long] 0 devHealthy
    (fun _ => rfl) (fun _ => rfl)

/-- Claim C8: with the flag always set, if the first failing brightness
write (index `K` of the schedule, not yet reached) falls inside the
writes this symbol list performs, the loop ends `.failed` — the error
propagates out of `blink` through the symbol loop with no retry (the
final write count is exactly `K + 1`, so the failing write was
attempted once and nothing ran after it) and `main` exits with a
non-zero status. -/
theorem runSymbols_write_failure_aborts (a : Args) (led : SysfsLed) (ρ : Nat → Bool)
    (syms : List MSymbol) :
    ∀ (p K : Nat) (d : Device),
    (∀ i, ρ i = true) →
    (∀ n, n < K → d.bFail n = false) →
    d.bFail K = true →
    d.bCount ≤ K →
    K < d.bCount + numWrites syms →
    (runSymbols a led ρ syms p d).1 = .failed ∧
    (runSymbols a led ρ syms p d).2.2.bCount = K + 1 ∧
    mainExitCode (runSymbols a led ρ syms p d).1 = 1 := by
  induction syms with
  | nil =>
    intro p K d _ _ _ hstart hwithin
    exfalso
    simp only [numWrites] at hwithin
    omega
  | cons s rest ih =>
    intro p K d hρ hbefore hfail hstart hwithin
    have hρp := hρ p
    cases s with
    | Break =>
      simp only [runSymbols, hρp, if_true]
      simp only [numWrites] at hwithin
      exact ih (p + 1) K (sleepE d a.base_duration) hρ hbefore hfail hstart hwithin
    | Short =>
      simp only [runSymbols, hρp, if_true]
      simp only [numWrites] at hwithin
      by_cases h1 : d.bCount = K
      · have hw : d.bFail d.bCount = true := by rw [h1]; exact hfail
        simp only [blink, SysfsLed.on, SysfsLed.set]
        rw [writeB_fail d _ hw]
        refine ⟨rfl, ?_, rfl⟩
        show d.bCount + 1 = K + 1
        omega
      · have hlt : d.bCount < K := by omega
        have hw0 : d.bFail d.bCount = false := hbefore _ hlt
        simp only [blink, SysfsLed.on, SysfsLed.off, SysfsLed.set]
        rw [writeB_succ d _ hw0]
        simp only [sleepE]
        by_cases h2 : d.bCount + 1 = K
        · have hw1 : d.bFail (d.bCount + 1) = true := by rw [h2]; exact hfail
          rw [writeB_fail _ 0 hw1]
          refine ⟨rfl, ?_, rfl⟩
          show d.bCount + 1 + 1 = K + 1
          omega
        · have hw1 : d.bFail (d.bCount + 1) = false := hbefore _ (by omega)
          rw [writeB_succ _ 0 hw1]
          exact ih (p + 1) K _ hρ hbefore hfail
            (by show d.bCount + 1 + 1 ≤ K; omega)
            (by show K < d.bCount + 1 + 1 + numWrites rest; omega)
    | Long =>
      simp only [runSymbols, hρp, if_true]
      simp only [numWrites] at hwithin
      by_cases h1 : d.bCount = K
      · have hw : d.bFail d.bCount = true := by rw [h1]; exact hfail
        simp only [blink, SysfsLed.on, SysfsLed.set]
        rw [writeB_fail d _ hw]
        refine ⟨rfl, ?_, rfl⟩
        show d.bCount + 1 = K + 1
        omega
      · have hlt : d.bCount < K := by omega
        have hw0 : d.bFail d.bCount = false := hbefore _ hlt
        simp only [blink, SysfsLed.on, SysfsLed.off, SysfsLed.set]
        rw [writeB_succ d _ hw0]
        simp only [sleepE]
        by_cases h2 : d.bCount + 1 = K
        · have hw1 : d.bFail (d.bCount + 1) = true := by rw [h2]; exact hfail
          rw [writeB_fail _ 0 hw1]
          refine ⟨rfl, ?_, rfl⟩
          show d.bCount + 1 + 1 = K + 1
          omega
        · have hw1 : d.bFail (d.bCount + 1) = false := hbefore _ (by omega)
          rw [writeB_succ _ 0 hw1]
          exact ih (p + 1) K _ hρ hbefore hfail
            (by show d.bCount + 1 + 1 ≤ K; omega)
            (by show K < d.bCount + 1 + 1 + numWrites rest; omega)

/-- Witness for claim C4: the value one half is accepted. -/
theorem dutyCycle_from_str_validation_witness :
    dutyCycleCheck (1 / 2) = .ok ⟨1 / 2⟩ :=
  (dutyCycle_from_str_validation (1 / 2)).1.mpr (by norm_num)

/-- Witness for claim C5: a 100 ms pause is returned whole, and a
1000 ms pause is sliced within the proved bounds. -/
theorem approximate_pause_repeats_spec_witness :
    approximate_pause_repeats 100 = (100, 1) ∧
    (200 ≤ (approximate_pause_repeats 1000).1 ∧
     (approximate_pause_repeats 1000).1 < 400 ∧
     (approximate_pause_repeats 1000).2 = 1000 / (approximate_pause_repeats 1000).1 ∧
     (approximate_pause_repeats 1000).1 * (approximate_pause_repeats 1000).2 ≤ 1000 ∧
     1000 - (approximate_pause_repeats 1000).1 * (approximate_pause_repeats 1000).2
       < (approximate_pause_repeats 1000).1) :=
  ⟨(approximate_pause_repeats_spec 100).1 (by decide),
   (approximate_pause_repeats_spec 1000).2 (by decide)⟩

/-- Witness for claim C6: with ten slices configured and the flag
cleared at poll 3, at most three slice sleeps run and the loop breaks
out as cancelled. -/
theorem pauseLoop_cancellation_latency_witness :
    (pauseLoop flagW 10 0).2 ≤ 3 ∧ (pauseLoop flagW 10 0).1 = true := by
  have h := pauseLoop_cancellation_latency flagW 10 0 3 (by decide)
  refine ⟨h.1, h.2 ?_ (by decide)⟩
  intro i j hij hfi
  simp only [flagW, decide_eq_false_iff_not] at hfi ⊢
  omega

/-- Witness for claim C8: two `Short` pulses on `devFailAt3` end in
`.failed` after exactly four write attempts, and `main` exits 1. -/
theorem runSymbols_write_failure_aborts_witness :
    (runSymbols argsW ledW (fun _ => true)
      [MSymbol.Short, MSymbol.Short] 0 devFailAt3).1 = LoopExit.failed ∧
    (runSymbols argsW ledW (fun _ => true)
      [MSymbol.Short, MSymbol.Short] 0 devFailAt3).2.2.bCount = 3 + 1 ∧
    mainExitCode (runSymbols argsW ledW (fun _ => true)
      [MSymbol.Short, MSymbol.Short] 0 devFailAt3).1 = 1 :=
  runSymbols_write_failure_aborts argsW ledW (fun _ => true)
    [MSymbol.Short, MSymbol.Short] 0 3 devFailAt3
    (fun _ => rfl) (by decide) (by decide) (by decide) (by decide)

/-- Witness for claim C10: a sample cycle's clock carries `Hour12`. -/
theorem format_hour12_hardcoded_witness :
    (appClock argsW 13 5).format = Format.Hour12 :=
  (format_hour12_hardcoded.1 argsW 13 5).1


lemma mem_lbracket_dropWhile {cs : List Char} :
    '[' ∈ cs ↔ cs.dropWhile (fun c => c != '[') ≠ [] := by
  induction cs with
  | nil => simp
  | cons a t ih =>
    by_cases ha : a = '['
    · subst ha
      rw [List.dropWhile_cons_of_neg (by simp)]
      simp
    · rw [List.dropWhile_cons_of_pos (by simpa [bne_iff_ne] using ha)]
      rw [← ih]
      simp only [List.mem_cons]
      constructor
      · rintro (h | h)
        · exact absurd h.symm ha
        · exact h
      · exact Or.inr

lemma parseTriggerRun_cases (cs : List Char) :
    parseTriggerRun cs = .panicked ∨
    parseTriggerRun cs = .ret (parseTriggerCore cs) := by
  unfold parseTriggerRun parseTriggerCore
  cases cs.dropWhile (fun c => c != '[') with
  | nil => exact Or.inr rfl
  | cons a rest =>
    dsimp only
    by_cases hrem : rest.dropWhile allowedChar = []
    · exact Or.inl (by rw [if_pos hrem])
    · right
      rw [if_neg hrem]
      by_cases h1 : rest.takeWhile allowedChar = []
      · rw [if_pos h1, if_pos h1]
      · rw [if_neg h1, if_neg h1]
        by_cases h2 : (rest.dropWhile allowedChar).head? = some ']'
        · rw [if_pos h2, if_pos h2]
          by_cases h3 : rest.takeWhile allowedChar = "none".data
          · rw [if_pos h3, if_pos h3]
          · rw [if_neg h3, if_neg h3]
        · rw [if_neg h2, if_neg h2]

lemma parseTriggerRun_panic_iff (cs : List Char) :
    parseTriggerRun cs = .panicked ↔
      ('[' ∈ cs ∧
        ∀ c ∈ (cs.dropWhile (fun c => c != '[')).tail, allowedChar c = true) := by
  unfold parseTriggerRun
  cases hdw : cs.dropWhile (fun c => c != '[') with
  | nil =>
    simp [mem_lbracket_dropWhile, hdw]
  | cons a rest =>
    dsimp only
    have hmem : '[' ∈ cs := mem_lbracket_dropWhile.mpr (by rw [hdw]; simp)
    simp only [List.tail_cons]
    constructor
    · intro hp
      by_cases hrem : rest.dropWhile allowedChar = []
      · exact ⟨hmem, List.dropWhile_eq_nil_iff.1 hrem⟩
      · exfalso
        rw [if_neg hrem] at hp
        by_cases h1 : rest.takeWhile allowedChar = []
        · rw [if_pos h1] at hp; cases hp
        · rw [if_neg h1] at hp
          by_cases h2 : (rest.dropWhile allowedChar).head? = some ']'
          · rw [if_pos h2] at hp
            by_cases h3 : rest.takeWhile allowedChar = "none".data
            · rw [if_pos h3] at hp; cases hp
            · rw [if_neg h3] at hp; cases hp
          · rw [if_neg h2] at hp; cases hp
    · rintro ⟨-, hall⟩
      rw [if_pos (List.dropWhile_eq_nil_iff.2 hall)]

lemma render_dropWhile (modes : List (List Char)) (active : List Char)
    (hwf : ∀ m ∈ modes, m ≠ [] ∧ (∀ c ∈ m, allowedChar c = true))
    (hmem : active ∈ modes) :
    ∃ tail, (render active modes).dropWhile (fun c => c != '[')
      = '[' :: (active ++ ']' :: tail) := by
  induction modes with
  | nil => cases hmem
  | cons m ms ih =>
    by_cases hm : m = active
    · subst hm
      cases ms with
      | nil =>
        refine ⟨[], ?_⟩
        show (renderItem m m).dropWhile _ = _
        rw [renderItem, if_pos rfl, List.dropWhile_cons_of_neg (by simp)]
      | cons m2 ms2 =>
        refine ⟨' ' :: render m (m2 :: ms2), ?_⟩
        show (renderItem m m ++ ' ' :: render m (m2 :: ms2)).dropWhile _ = _
        rw [renderItem, if_pos rfl,
            show ('[' :: (m ++ [']'])) ++ ' ' :: render m (m2 :: ms2)
              = '[' :: (m ++ ']' :: (' ' :: render m (m2 :: ms2))) by simp,
            List.dropWhile_cons_of_neg (by simp)]
    · have hmem' : active ∈ ms := by
        rcases List.mem_cons.1 hmem with h | h
        · exact absurd h.symm hm
        · exact h
      cases ms with
      | nil => cases hmem'
      | cons m2 ms2 =>
        obtain ⟨hne, hall⟩ := hwf m (by simp)
        obtain ⟨tail, htail⟩ := ih (fun x hx => hwf x (by simp [hx])) hmem'
        refine ⟨tail, ?_⟩
        show (renderItem active m ++ ' ' :: render active (m2 :: ms2)).dropWhile _ = _
        rw [renderItem, if_neg hm,
            show m ++ ' ' :: render active (m2 :: ms2)
              = (m ++ [' ']) ++ render active (m2 :: ms2) by simp,
            List.dropWhile_append_of_pos (by
              intro x hx
              rcases List.mem_append.1 hx with hx | hx
              · simpa [bne_iff_ne] using allowed_ne_lbracket (hall x hx)
              · simp only [List.mem_singleton] at hx
                subst hx
                simp)]
        exact htail

lemma render_parse_run (modes : List (List Char)) (active : List Char)
    (hwf : ∀ m ∈ modes, m ≠ [] ∧ (∀ c ∈ m, allowedChar c = true))
    (hmem : active ∈ modes) :
    parseTriggerRun (render active modes)
      = .ret (if active = "none".data then none else some active) := by
  obtain ⟨tail, htail⟩ := render_dropWhile modes active hwf hmem
  obtain ⟨hne, hall⟩ := hwf active hmem
  unfold parseTriggerRun
  rw [htail]
  dsimp only
  have h1 : (active ++ ']' :: tail).takeWhile allowedChar = active := by
    rw [List.takeWhile_append_of_pos hall, List.takeWhile_cons_of_neg (by decide)]
    simp
  have h2 : (active ++ ']' :: tail).dropWhile allowedChar = ']' :: tail := by
    rw [List.dropWhile_append_of_pos hall, List.dropWhile_cons_of_neg (by decide)]
  rw [h1, h2, if_neg (by simp), if_neg hne,
      if_pos (show (']' :: tail).head? = some ']' from rfl)]
  by_cases hnone : active = "none".data
  · rw [if_pos hnone, if_pos hnone]
  · rw [if_neg hnone, if_neg hnone]

/-- Claim C3 (amended): `parse_trigger` does not return on every input
— it panics (`trigger_char1`'s streaming `split_at_position1` yields
`Err::Incomplete`, on which `Finish::finish` panics) exactly when the
input contains a `[` and every character after the first `[` up to end
of input is alphanumeric-or-hyphen; on every other input it returns,
without panicking, the substring between the first `[` and the first
`]` after it — unless that substring is the literal token `none`, is
empty, or is not composed solely of alphanumeric-or-hyphen characters,
or no such bracketed token exists, in which cases it returns no mode —
including the four quoted examples. -/
theorem parse_trigger_spec :
    (∀ cs : List Char, parseTriggerRun cs = .panicked ↔
      ('[' ∈ cs ∧
        ∀ c ∈ (cs.dropWhile (fun c => c != '[')).tail, allowedChar c = true)) ∧
    (∀ cs : List Char, parseTriggerRun cs ≠ .panicked →
      parseTriggerRun cs = .ret (specTriggerParse cs)) ∧
    parseTriggerRun "[none]".data = .ret none ∧
    parseTriggerRun "[usb-gadget]".data = .ret (some "usb-gadget".data) ∧
    parseTriggerRun "some [processor-14x] banana".data
      = .ret (some "processor-14x".data) ∧
    parseTriggerRun "no brackets here".data = .ret none := by
  refine ⟨parseTriggerRun_panic_iff, ?_, by decide, by decide, by decide, by decide⟩
  intro cs h
  rw [(parseTriggerRun_cases cs).resolve_left h, parseTriggerCore_eq_spec cs]

/-- Counterexample for claim C3 as stated: on the inputs `"[a"` and
`"[none"` the parser does not return at all — the allowed-character run
reaches end of input, `split_at_position1` answers `Err::Incomplete`,
and `Finish::finish` panics. -/
theorem parse_trigger_incomplete_panics :
    parseTriggerRun "[a".data = ParseResult.panicked ∧
    parseTriggerRun "[none".data = ParseResult.panicked := by
  decide

/-- Witness for claim C3: a concrete blob on which the parser returns
(does not panic), with the value the claim's description gives. -/
theorem parse_trigger_spec_witness :
    parseTriggerRun "some [processor-14x] banana".data
      = .ret (specTriggerParse "some [processor-14x] banana".data) :=
  parse_trigger_spec.2.1 "some [processor-14x] banana".data (by decide)
